import Mathlib

/-!
Verification of the conversational order assistant against its specification.
Python strings are modelled as `List Char`; floats as `Rat`; dictionaries as
association lists; fallible code as `Except`.
-/

namespace OrderAssistant

/-- Characters treated as whitespace by the modelled string operations
(`str.strip`, the regex class matched by a whitespace pattern). -/
def isPySpace (c : Char) : Bool :=
  c = ' ' || c = '\t' || c = '\n' || c = '\r' || c = '\x0b' || c = '\x0c'

/-- Lower-casing of one character, modelling `str.lower` on the ASCII range
and on the Latin-1 uppercase range U+00C0–U+00DE (whose lowercase forms sit 32
code points higher, except U+00D7 `×`, which has no case).  The Latin-1 range
matters because the source's first pattern contains the two-character mojibake
sequence `Ã—`, whose first character `Ã` (U+00C3) lower-cases to `ã`. -/
def pyLowerChar (c : Char) : Char :=
  if 65 ≤ c.toNat ∧ c.toNat ≤ 90 then Char.ofNat (c.toNat + 32)
  else if 192 ≤ c.toNat ∧ c.toNat ≤ 222 ∧ c.toNat ≠ 215 then Char.ofNat (c.toNat + 32)
  else c

/-- `s.lower()`. -/
def pyLower (s : List Char) : List Char := s.map pyLowerChar

/-- Remove trailing whitespace. -/
def dropTrailingSpaces (s : List Char) : List Char :=
  (s.reverse.dropWhile isPySpace).reverse

/-- `s.strip()`. -/
def pyStrip (s : List Char) : List Char :=
  dropTrailingSpaces (s.dropWhile isPySpace)

/-- Python substring test `pat in s`. -/
def hasSub (pat : List Char) : List Char → Bool
  | [] => pat.isEmpty
  | c :: rest => pat.isPrefixOf (c :: rest) || hasSub pat rest

example : pyLower (("AbC").toList) = ("abc").toList := by decide
example : pyStrip (("  ab ").toList) = ("ab").toList := by decide
example : hasSub (("bc").toList) (("abcd").toList) = true := by decide
example : hasSub [] [] = true := by decide

/-- One left-to-right pass of `s.replace(pat, '')`: every non-overlapping
occurrence of `pat` is deleted, scanning from the left.  The `Nat` argument is
structural fuel; it is always called with at least `s.length`, which suffices. -/
def replaceDelFuel (pat : List Char) : Nat → List Char → List Char
  | _, [] => []
  | 0, s => s
  | fuel + 1, c :: rest =>
    if pat ≠ [] ∧ pat.isPrefixOf (c :: rest) then
      replaceDelFuel pat fuel (rest.drop (pat.length - 1))
    else
      c :: replaceDelFuel pat fuel rest

/-- `s.replace(pat, '')`. -/
def replaceDel (pat s : List Char) : List Char := replaceDelFuel pat s.length s

example : replaceDel (("of").toList) (("ooff").toList) = ("of").toList := by decide
example : replaceDel (("kg").toList) (("akgb").toList) = ("ab").toList := by decide

/-- The unit tokens stripped by `_normalize_item_name`, in source order. -/
def unitTokens : List (List Char) :=
  [("kg").toList, ("g").toList, ("l").toList, ("ml").toList, ("of").toList]

/-- `InventoryChecker._normalize_item_name`: lower-case, strip, then for each
unit token in order delete all its occurrences and strip again. -/
def normalizeItemName (name : List Char) : List Char :=
  unitTokens.foldl (fun n u => pyStrip (replaceDel u n)) (pyStrip (pyLower name))

example : normalizeItemName (("2 Kg Sugar").toList) = ("2  suar").toList := by decide
example : normalizeItemName (("ooff").toList) = ("of").toList := by decide
example : normalizeItemName (("of").toList) = [] := by decide

theorem toNat_ofNat_small (n : Nat) (hn : n < 55296) :
    (Char.ofNat n).toNat = n := by
  have h : n.isValidChar := by left; exact hn
  simp only [Char.ofNat, Char.toNat]
  rw [dif_pos h]
  simp [Char.ofNatAux, UInt32.toNat, BitVec.toNat_ofNatLt]

theorem pyLowerChar_fixed {d : Char} (h1 : ¬(65 ≤ d.toNat ∧ d.toNat ≤ 90))
    (h2 : ¬(192 ≤ d.toNat ∧ d.toNat ≤ 222 ∧ d.toNat ≠ 215)) :
    pyLowerChar d = d := by
  unfold pyLowerChar
  rw [if_neg h1, if_neg h2]

theorem pyLowerChar_idem (c : Char) : pyLowerChar (pyLowerChar c) = pyLowerChar c := by
  by_cases h1 : 65 ≤ c.toNat ∧ c.toNat ≤ 90
  · have hc : pyLowerChar c = Char.ofNat (c.toNat + 32) := by
      unfold pyLowerChar; rw [if_pos h1]
    have ht : (Char.ofNat (c.toNat + 32)).toNat = c.toNat + 32 :=
      toNat_ofNat_small _ (by omega)
    rw [hc]
    exact pyLowerChar_fixed (by rw [ht]; omega) (by rw [ht]; omega)
  · by_cases h2 : 192 ≤ c.toNat ∧ c.toNat ≤ 222 ∧ c.toNat ≠ 215
    · have hc : pyLowerChar c = Char.ofNat (c.toNat + 32) := by
        unfold pyLowerChar; rw [if_neg h1, if_pos h2]
      have ht : (Char.ofNat (c.toNat + 32)).toNat = c.toNat + 32 :=
        toNat_ofNat_small _ (by omega)
      rw [hc]
      exact pyLowerChar_fixed (by rw [ht]; omega) (by rw [ht]; omega)
    · rw [pyLowerChar_fixed h1 h2, pyLowerChar_fixed h1 h2]

theorem mem_pyLower_fixed {c : Char} {s : List Char} (h : c ∈ pyLower s) :
    pyLowerChar c = c := by
  rcases List.mem_map.mp h with ⟨c', _, rfl⟩
  exact pyLowerChar_idem c'

theorem pyLower_eq_self {s : List Char} (h : ∀ c ∈ s, pyLowerChar c = c) :
    pyLower s = s := by
  unfold pyLower
  calc s.map pyLowerChar = s.map id := List.map_congr_left h
  _ = s := List.map_id s

theorem mem_pyStrip {c : Char} {s : List Char} (h : c ∈ pyStrip s) : c ∈ s := by
  unfold pyStrip dropTrailingSpaces at h
  have h1 : c ∈ (s.dropWhile isPySpace).reverse.dropWhile isPySpace := List.mem_reverse.mp h
  have h2 : c ∈ (s.dropWhile isPySpace).reverse := (List.dropWhile_sublist isPySpace).subset h1
  exact (List.dropWhile_sublist isPySpace).subset (List.mem_reverse.mp h2)

theorem replaceDelFuel_sublist (pat : List Char) (fuel : Nat) (s : List Char) :
    (replaceDelFuel pat fuel s).Sublist s := by
  induction fuel generalizing s with
  | zero => cases s <;> simp [replaceDelFuel]
  | succ n ih =>
    cases s with
    | nil => simp [replaceDelFuel]
    | cons c rest =>
      rw [replaceDelFuel]
      split
      · exact ((ih _).trans (List.drop_sublist _ rest)).trans (List.sublist_cons_self c rest)
      · exact (ih rest).cons₂ c

theorem mem_replaceDel {c : Char} {pat s : List Char} (h : c ∈ replaceDel pat s) : c ∈ s :=
  (replaceDelFuel_sublist pat s.length s).subset h

theorem mem_normalizeItemName_fixed {c : Char} {s : List Char}
    (h : c ∈ normalizeItemName s) : pyLowerChar c = c := by
  unfold normalizeItemName unitTokens at h
  simp only [List.foldl] at h
  exact mem_pyLower_fixed (mem_pyStrip (mem_replaceDel (mem_pyStrip (mem_replaceDel
    (mem_pyStrip (mem_replaceDel (mem_pyStrip (mem_replaceDel (mem_pyStrip (mem_replaceDel
      (mem_pyStrip h)))))))))))

theorem dropWhile_self_again (p : Char → Bool) (l : List Char) :
    (l.dropWhile p).dropWhile p = l.dropWhile p := by
  induction l with
  | nil => simp
  | cons c rest ih =>
    by_cases h : p c
    · simp [List.dropWhile_cons, h, ih]
    · simp [List.dropWhile_cons, h]

theorem dropWhile_eq_self_of_isPrefixOf {p : Char → Bool} {t m : List Char}
    (hpre : t <+: m) (hm : m.dropWhile p = m) : t.dropWhile p = t := by
  cases t with
  | nil => simp
  | cons c t' =>
    rcases hpre with ⟨u, rfl⟩
    simp only [List.cons_append, List.dropWhile_cons] at hm ⊢
    by_cases hpc : p c = true
    · rw [if_pos hpc] at hm
      exfalso
      have hlen := congrArg List.length hm
      have hle := (List.dropWhile_sublist (l := t' ++ u) p).length_le
      simp only [List.length_cons] at hlen
      omega
    · rw [if_neg hpc]

theorem dropTrailing_isPrefixOf (l : List Char) : dropTrailingSpaces l <+: l := by
  unfold dropTrailingSpaces
  have h := List.dropWhile_suffix (l := l.reverse) isPySpace
  have h2 := h.reverse
  rwa [List.reverse_reverse] at h2

theorem dropTrailing_idem (l : List Char) :
    dropTrailingSpaces (dropTrailingSpaces l) = dropTrailingSpaces l := by
  unfold dropTrailingSpaces
  rw [List.reverse_reverse, dropWhile_self_again]

theorem pyStrip_idem (s : List Char) : pyStrip (pyStrip s) = pyStrip s := by
  unfold pyStrip
  rw [dropWhile_eq_self_of_isPrefixOf (dropTrailing_isPrefixOf (s.dropWhile isPySpace))
    (dropWhile_self_again isPySpace s), dropTrailing_idem]

theorem replaceDelFuel_of_no_sub {pat s : List Char}
    (h : hasSub pat s = false) (fuel : Nat) : replaceDelFuel pat fuel s = s := by
  induction fuel generalizing s with
  | zero => cases s <;> simp [replaceDelFuel]
  | succ n ih =>
    cases s with
    | nil => simp [replaceDelFuel]
    | cons c rest =>
      rw [hasSub] at h
      simp only [Bool.or_eq_false_iff] at h
      rw [replaceDelFuel, if_neg, ih h.2]
      intro hcon
      rw [hcon.2] at h
      simp [List.isPrefixOf_iff_prefix] at h

theorem replaceDel_of_no_sub {pat s : List Char}
    (h : hasSub pat s = false) : replaceDel pat s = s :=
  replaceDelFuel_of_no_sub h s.length

theorem normalizeItemName_strip (s : List Char) :
    pyStrip (normalizeItemName s) = normalizeItemName s := by
  have : normalizeItemName s = pyStrip (replaceDel (("of").toList)
      (pyStrip (replaceDel (("ml").toList) (pyStrip (replaceDel (("l").toList)
        (pyStrip (replaceDel (("g").toList) (pyStrip (replaceDel (("kg").toList)
          (pyStrip (pyLower s))))))))))) := by
    simp [normalizeItemName, unitTokens, List.foldl]
  rw [this, pyStrip_idem]

/-- C7 (counterexample): name normalization is not idempotent.  The input
`"ooff"` normalizes to `"of"` (the single deletion pass over `'of'` leaves a
freshly formed occurrence behind), and normalizing again yields `""`. -/
theorem normalize_not_idempotent_cex :
    normalizeItemName (normalizeItemName (("ooff").toList))
      ≠ normalizeItemName (("ooff").toList) := by decide

/-- C7 (amended): normalization is idempotent on every string whose normal form
contains no unit token (`kg`, `g`, `l`, `ml`, `of`) as a substring; in general a
second normalization can strictly shrink the name, as the counterexample
`"ooff"` shows. -/
theorem normalize_idem_of_no_unit_sub (s : List Char)
    (h : ∀ u ∈ unitTokens, hasSub u (normalizeItemName s) = false) :
    normalizeItemName (normalizeItemName s) = normalizeItemName s := by
  have hlow : pyLower (normalizeItemName s) = normalizeItemName s :=
    pyLower_eq_self (fun _ hc => mem_normalizeItemName_fixed hc)
  have hstrip := normalizeItemName_strip s
  have h1 : replaceDel (("kg").toList) (normalizeItemName s) = normalizeItemName s :=
    replaceDel_of_no_sub (h _ (by decide))
  have h2 : replaceDel (("g").toList) (normalizeItemName s) = normalizeItemName s :=
    replaceDel_of_no_sub (h _ (by decide))
  have h3 : replaceDel (("l").toList) (normalizeItemName s) = normalizeItemName s :=
    replaceDel_of_no_sub (h _ (by decide))
  have h4 : replaceDel (("ml").toList) (normalizeItemName s) = normalizeItemName s :=
    replaceDel_of_no_sub (h _ (by decide))
  have h5 : replaceDel (("of").toList) (normalizeItemName s) = normalizeItemName s :=
    replaceDel_of_no_sub (h _ (by decide))
  conv_lhs => rw [normalizeItemName]
  simp only [unitTokens, List.foldl]
  rw [hlow, hstrip, h1, hstrip, h2, hstrip, h3, hstrip, h4, hstrip, h5, hstrip]

/-- Witness for the amended C7 theorem at the concrete input `"Bread"`. -/
theorem normalize_idem_witness :
    (∀ u ∈ unitTokens, hasSub u (normalizeItemName (("Bread").toList)) = false)
      ∧ normalizeItemName (normalizeItemName (("Bread").toList))
          = normalizeItemName (("Bread").toList) :=
  ⟨by decide, normalize_idem_of_no_unit_sub (("Bread").toList) (by decide)⟩

/-! ## Delivery fees (`backend/delivery_option.py`) -/

/-- The `delivery_fees` entry of `data/shop_info.json`: `none` models a file in
which the key is absent (so `shop_info.get('delivery_fees', {})` yields `{}`).
Fee tables are ordered zone-keyword/fee pairs, as Python dicts preserve
insertion order. -/
structure ShopInfo where
  delivery_fees : Option (List (List Char × Rat))

/-- `DeliveryOption._load_delivery_fees`: `none` models `FileNotFoundError`
(handler returns `{}`); otherwise the `delivery_fees` key with default `{}`. -/
def loadDeliveryFees : Option ShopInfo → List (List Char × Rat)
  | none => []
  | some info => info.delivery_fees.getD []

/-- The zone loop of `_calculate_delivery_fee`: first zone whose lower-cased
keyword is a substring of the lower-cased address. -/
def zoneLoop (address : List Char) : List (List Char × Rat) → Option Rat
  | [] => none
  | (zone, fee) :: rest =>
    if hasSub (pyLower zone) (pyLower address) then some fee else zoneLoop address rest

/-- Python `max` over the fee values of a non-empty table (the `[]` case is
never reached by `_calculate_delivery_fee`, which guards on emptiness). -/
def pyMaxFees : List Rat → Rat
  | [] => 0
  | v :: vs => vs.foldl max v

/-- `DeliveryOption._calculate_delivery_fee`. -/
def calculateDeliveryFee (fees : List (List Char × Rat)) (address : List Char) : Rat :=
  if fees.isEmpty then 100
  else
    match zoneLoop address fees with
    | some fee => fee
    | none => if fees.isEmpty then 150 else pyMaxFees (fees.map Prod.snd)

example :
    calculateDeliveryFee [(("north").toList, 100), (("south").toList, 150)]
      (("north wing").toList) = 100 := by decide

/-- C3 (counterexample): the claimed third and fourth fallback tiers are not
distinct constants.  A zone table that failed to load (`FileNotFoundError`) and
a shop file with no configured zones both produce the empty table, and the fee
is 100.0 in both cases; the distinct literal 150.0 sits in an unreachable
branch (the function has already returned 100.0 whenever the table is empty). -/
theorem delivery_fee_tiers_cex :
    calculateDeliveryFee (loadDeliveryFees none) (("anywhere").toList) = 100
      ∧ calculateDeliveryFee (loadDeliveryFees (some ⟨none⟩)) (("anywhere").toList) = 100
      ∧ calculateDeliveryFee (loadDeliveryFees (some ⟨some []⟩)) (("anywhere").toList) = 100 := by
  exact ⟨by decide, by decide, by decide⟩

/-- C3 (amended): the fee computation has the first two claimed tiers — first
matching zone wins, else the maximum configured fee — but a single fixed
fallback of 100.0 covers both an unconfigured and an unloadable zone table
(both load as the empty table); the distinct 150.0 default is unreachable. -/
theorem delivery_fee_tiers (info : Option ShopInfo) (address : List Char) :
    (loadDeliveryFees info = [] →
        calculateDeliveryFee (loadDeliveryFees info) address = 100)
      ∧ (∀ fee, zoneLoop address (loadDeliveryFees info) = some fee →
          calculateDeliveryFee (loadDeliveryFees info) address = fee)
      ∧ (loadDeliveryFees info ≠ [] →
          zoneLoop address (loadDeliveryFees info) = none →
          calculateDeliveryFee (loadDeliveryFees info) address
            = pyMaxFees ((loadDeliveryFees info).map Prod.snd)) := by
  refine ⟨fun h => ?_, fun fee h => ?_, fun h1 h2 => ?_⟩
  · rw [calculateDeliveryFee, if_pos (List.isEmpty_iff.mpr h)]
  · have hne : (loadDeliveryFees info).isEmpty = false := by
      cases hl : loadDeliveryFees info with
      | nil => rw [hl] at h; simp [zoneLoop] at h
      | cons a t => simp
    rw [calculateDeliveryFee, hne]
    simp [h]
  · have hne : (loadDeliveryFees info).isEmpty = false := by
      cases hl : loadDeliveryFees info with
      | nil => exact absurd hl h1
      | cons a t => simp
    rw [calculateDeliveryFee, hne]
    simp [h2, hne]

/-- Witness for the amended C3 theorem on a concrete two-zone table: matching
zone fee, and maximum fee when nothing matches. -/
theorem delivery_fee_tiers_witness :
    calculateDeliveryFee
        (loadDeliveryFees (some ⟨some [(("north").toList, 100), (("south").toList, 150)]⟩))
        (("east side").toList) = 150 := by
  have h := (delivery_fee_tiers
    (some ⟨some [(("north").toList, 100), (("south").toList, 150)]⟩)
    (("east side").toList)).2.2 (by decide) (by decide)
  rw [h]
  decide

/-! ## Inventory checker (`backend/inventory_checker.py`) -/

/-- One record of `data/inventory.json`.  `unit` and `variations` model
optional JSON keys (`item.get('unit', 'unit')`, `'variations' in item`). -/
structure InvItem where
  name : List Char
  quantity : Rat
  price : Rat
  unit : Option (List Char)
  variations : Option (List (List Char))
deriving DecidableEq

/-- `InventoryChecker._find_matching_item`: exact normalized match, then
two-way substring match, then substring match against declared variations. -/
def findMatchingItem (inv : List InvItem) (itemName : List Char) : Option InvItem :=
  let normInput := normalizeItemName itemName
  match inv.find? (fun it => normalizeItemName it.name == normInput) with
  | some it => some it
  | none =>
    match inv.find? (fun it =>
        hasSub normInput (normalizeItemName it.name)
          || hasSub (normalizeItemName it.name) normInput) with
    | some it => some it
    | none =>
      inv.find? (fun it =>
        match it.variations with
        | some vs => vs.any (fun v =>
            hasSub normInput (normalizeItemName v)
              || hasSub (normalizeItemName v) normInput)
        | none => false)

/-- An entry of the `available` list of `check_availability`. -/
structure AvailEntry where
  name : List Char
  quantity : Rat
  price : Rat
  total : Rat
  unit : List Char
deriving DecidableEq

/-- An entry of the `unavailable` list; `not_found = false` models an entry
without the `'not_found'` key (insufficient stock), `true` the no-match entry. -/
structure UnavailEntry where
  name : List Char
  requested : Rat
  available : Rat
  unit : List Char
  not_found : Bool
deriving DecidableEq

/-- Alternatives map: a Python dict in insertion order. -/
abbrev AltMap : Type := List (List Char × List (List Char))

/-- Dict assignment `d[k] = v`: overwrite in place or append. -/
def dictSetAlt (k : List Char) (v : List (List Char)) (d : AltMap) : AltMap :=
  if (List.any d fun kv => kv.1 == k) then
    List.map (fun kv => if kv.1 == k then (k, v) else kv) d
  else d ++ [(k, v)]

def mkAvail (it : InvItem) (qty : Rat) : AvailEntry :=
  ⟨it.name, qty, it.price, it.price * qty, it.unit.getD (("unit").toList)⟩

def mkShort (it : InvItem) (qty : Rat) : UnavailEntry :=
  ⟨it.name, qty, it.quantity, it.unit.getD (("unit").toList), false⟩

def mkNotFound (name : List Char) (qty : Rat) : UnavailEntry :=
  ⟨name, qty, 0, ("unit").toList, true⟩

/-- The request loop of `check_availability`, threading the three accumulators
exactly as the Python loop appends to them. -/
def checkLoop (inv : List InvItem) :
    List (List Char × Rat) → List AvailEntry → List UnavailEntry → AltMap →
      List AvailEntry × List UnavailEntry × AltMap
  | [], avail, unavail, alts => (avail, unavail, alts)
  | (name, qty) :: rest, avail, unavail, alts =>
    match findMatchingItem inv name with
    | some it =>
      let alts1 := match it.variations with
        | some vs => dictSetAlt it.name vs alts
        | none => alts
      if it.quantity ≥ qty then
        checkLoop inv rest (avail ++ [mkAvail it qty]) unavail alts1
      else
        checkLoop inv rest avail (unavail ++ [mkShort it qty]) alts1
    | none =>
      let sims := (inv.filter fun invIt =>
          hasSub (normalizeItemName name) (normalizeItemName invIt.name)).map InvItem.name
      let alts1 := if sims.isEmpty then alts else dictSetAlt name sims alts
      checkLoop inv rest avail (unavail ++ [mkNotFound name qty]) alts1

/-- The dict returned by `check_availability`; `timestamp` is the formatted
call time, passed in as a parameter. -/
structure MatchResult where
  available : List AvailEntry
  unavailable : List UnavailEntry
  alternatives : AltMap
  timestamp : List Char

/-- `InventoryChecker.check_availability`. -/
def checkAvailability (inv : List InvItem) (now : List Char)
    (items : List (List Char × Rat)) : MatchResult :=
  let r := checkLoop inv items [] [] []
  ⟨r.1, r.2.1, r.2.2, now⟩

/-- How a single request is classified on the `available` side. -/
def availOf (inv : List InvItem) (req : List Char × Rat) : Option AvailEntry :=
  match findMatchingItem inv req.1 with
  | some it => if it.quantity ≥ req.2 then some (mkAvail it req.2) else none
  | none => none

/-- How a single request is classified on the `unavailable` side. -/
def unavailOf (inv : List InvItem) (req : List Char × Rat) : Option UnavailEntry :=
  match findMatchingItem inv req.1 with
  | some it => if it.quantity ≥ req.2 then none else some (mkShort it req.2)
  | none => some (mkNotFound req.1 req.2)

theorem checkLoop_characterization (inv : List InvItem)
    (items : List (List Char × Rat)) :
    ∀ avail unavail alts,
      (checkLoop inv items avail unavail alts).1
          = avail ++ items.filterMap (availOf inv)
        ∧ (checkLoop inv items avail unavail alts).2.1
          = unavail ++ items.filterMap (unavailOf inv) := by
  induction items with
  | nil => intro avail unavail alts; simp [checkLoop]
  | cons req rest ih =>
    intro avail unavail alts
    obtain ⟨name, qty⟩ := req
    rw [checkLoop]
    simp only [List.filterMap_cons]
    cases hf : findMatchingItem inv name with
    | some it =>
      dsimp only
      by_cases hq : it.quantity ≥ qty
      · rw [if_pos hq]
        constructor
        · rw [(ih _ _ _).1]
          simp [availOf, hf, hq, List.append_assoc]
        · rw [(ih _ _ _).2]
          simp [unavailOf, hf, hq]
      · rw [if_neg hq]
        constructor
        · rw [(ih _ _ _).1]
          simp [availOf, hf, hq]
        · rw [(ih _ _ _).2]
          simp [unavailOf, hf, hq, List.append_assoc]
    | none =>
      dsimp only
      constructor
      · rw [(ih _ _ _).1]
        simp [availOf, hf]
      · rw [(ih _ _ _).2]
        simp [unavailOf, hf, List.append_assoc]

theorem availOf_unavailOf_exclusive (inv : List InvItem) (req : List Char × Rat) :
    (availOf inv req).isSome = !(unavailOf inv req).isSome := by
  unfold availOf unavailOf
  cases findMatchingItem inv req.1 with
  | some it => by_cases hq : it.quantity ≥ req.2 <;> simp [hq]
  | none => simp

theorem filterMap_length_partition (inv : List InvItem)
    (items : List (List Char × Rat)) :
    (items.filterMap (availOf inv)).length
        + (items.filterMap (unavailOf inv)).length = items.length := by
  induction items with
  | nil => simp
  | cons req rest ih =>
    have hx := availOf_unavailOf_exclusive inv req
    simp only [List.filterMap_cons]
    cases ha : availOf inv req with
    | some a =>
      rw [ha] at hx
      cases hu : unavailOf inv req with
      | some u => rw [hu] at hx; simp at hx
      | none => simp [List.length_cons]; omega
    | none =>
      rw [ha] at hx
      cases hu : unavailOf inv req with
      | some u => simp [List.length_cons]; omega
      | none => rw [hu] at hx; simp at hx

/-- C4: `check_availability` partitions its input.  The `available` and
`unavailable` lists are exactly the per-request classifications of the input
requests in order, each request is classified on exactly one side, and the two
output lengths add up to the input length. -/
theorem check_availability_partition (inv : List InvItem) (now : List Char)
    (items : List (List Char × Rat)) :
    (checkAvailability inv now items).available = items.filterMap (availOf inv)
      ∧ (checkAvailability inv now items).unavailable = items.filterMap (unavailOf inv)
      ∧ (∀ req, (availOf inv req).isSome = !(unavailOf inv req).isSome)
      ∧ (checkAvailability inv now items).available.length
          + (checkAvailability inv now items).unavailable.length = items.length := by
  have h := checkLoop_characterization inv items [] [] []
  simp only [List.nil_append] at h
  refine ⟨h.1, h.2, availOf_unavailOf_exclusive inv, ?_⟩
  show (checkAvailability inv now items).available.length
    + (checkAvailability inv now items).unavailable.length = items.length
  rw [show (checkAvailability inv now items).available = (checkLoop inv items [] [] []).1 from rfl,
    show (checkAvailability inv now items).unavailable = (checkLoop inv items [] [] []).2.1 from rfl,
    h.1, h.2]
  exact filterMap_length_partition inv items

/-- A line item passed to `update_inventory` (dicts with `name`, `quantity`). -/
structure OrderedItem where
  name : List Char
  quantity : Rat
deriving DecidableEq

/-- The inner loop of `update_inventory` for one ordered item: decrement the
first inventory record with the same name (then `break`). -/
def applyOrder : List InvItem → OrderedItem → List InvItem
  | [], _ => []
  | it :: rest, o =>
    if it.name = o.name then
      { it with quantity := it.quantity - o.quantity } :: rest
    else
      it :: applyOrder rest o

/-- `InventoryChecker.update_inventory` (the persisted write of the updated
catalog is outside the model; the function returns the new catalog). -/
def updateInventory (inv : List InvItem) (items : List OrderedItem) : List InvItem :=
  items.foldl applyOrder inv

/-- Catalog lookup by record name: the quantity of the first record named `n`. -/
def qtyOf (inv : List InvItem) (n : List Char) : Option Rat :=
  (inv.find? fun it => it.name == n).map InvItem.quantity

/-- The total quantity sold under name `n` by an ordered-item list (an ordered
item whose name repeats contributes each of its occurrences, since each loop
iteration decrements the matching record again). -/
def soldFor (items : List OrderedItem) (n : List Char) : Rat :=
  ((items.filter fun o => o.name == n).map OrderedItem.quantity).sum

theorem qtyOf_applyOrder (inv : List InvItem) (o : OrderedItem) (n : List Char) :
    qtyOf (applyOrder inv o) n
      = if n = o.name then (qtyOf inv n).map (fun q => q - o.quantity)
        else qtyOf inv n := by
  induction inv with
  | nil => simp [applyOrder, qtyOf]
  | cons it rest ih =>
    by_cases hio : it.name = o.name
    · rw [applyOrder, if_pos hio]
      by_cases hn : n = o.name
      · subst hn
        simp [qtyOf, List.find?_cons, hio]
      · have hit : (it.name == n) = false := by
          simp only [beq_eq_false_iff_ne, ne_eq]
          rw [hio]; exact fun hc => hn hc.symm
        simp [qtyOf, List.find?_cons, hit, hn]
    · rw [applyOrder, if_neg hio]
      by_cases hit : it.name = n
      · have hne : ¬ n = o.name := fun hc => hio (hit.trans hc)
        simp [qtyOf, List.find?_cons, hit, hne]
      · have hit' : (it.name == n) = false := by simpa using hit
        simp only [qtyOf, List.find?_cons, hit'] at *
        exact ih

theorem applyOrder_names (inv : List InvItem) (o : OrderedItem) :
    (applyOrder inv o).map InvItem.name = inv.map InvItem.name := by
  induction inv with
  | nil => simp [applyOrder]
  | cons it rest ih =>
    rw [applyOrder]
    split
    · simp
    · simp [ih]

theorem qtyOf_updateInventory (items : List OrderedItem) :
    ∀ (inv : List InvItem) (n : List Char),
      qtyOf (updateInventory inv items) n
        = (qtyOf inv n).map (fun q => q - soldFor items n) := by
  induction items with
  | nil =>
    intro inv n
    simp [updateInventory, soldFor]
  | cons o rest ih =>
    intro inv n
    have hstep : updateInventory inv (o :: rest) = updateInventory (applyOrder inv o) rest := rfl
    rw [hstep, ih (applyOrder inv o) n, qtyOf_applyOrder]
    by_cases hn : n = o.name
    · have hb : (o.name == n) = true := by simp [hn]
      have hcons : soldFor (o :: rest) n = o.quantity + soldFor rest n := by
        simp [soldFor, List.filter_cons, hb]
      rw [if_pos hn, hcons]
      cases qtyOf inv n with
      | none => rfl
      | some q => simp [sub_sub]
    · have hb : (o.name == n) = false := by
        simp only [beq_eq_false_iff_ne, ne_eq]
        exact fun hc => hn hc.symm
      have hcons : soldFor (o :: rest) n = soldFor rest n := by
        simp [soldFor, List.filter_cons, hb]
      rw [if_neg hn, hcons]

theorem updateInventory_names (inv : List InvItem) (items : List OrderedItem) :
    (updateInventory inv items).map InvItem.name = inv.map InvItem.name := by
  induction items generalizing inv with
  | nil => rfl
  | cons o rest ih =>
    have hstep : updateInventory inv (o :: rest) = updateInventory (applyOrder inv o) rest := rfl
    rw [hstep, ih, applyOrder_names]

/-- C8: stock commit is not idempotent.  For every catalog and every
ordered-item list, one `update_inventory` call decrements the (first) record
named `n` by exactly the total quantity sold under `n`, and calling it twice
decrements by exactly twice that quantity; records of unordered names are
untouched (`soldFor` is 0 there). -/
theorem update_inventory_double_decrements (inv : List InvItem)
    (items : List OrderedItem) :
    ∀ n, qtyOf (updateInventory inv items) n
          = (qtyOf inv n).map (fun q => q - soldFor items n)
      ∧ qtyOf (updateInventory (updateInventory inv items) items) n
          = (qtyOf inv n).map (fun q => q - 2 * soldFor items n) := by
  intro n
  refine ⟨qtyOf_updateInventory items inv n, ?_⟩
  rw [qtyOf_updateInventory items (updateInventory inv items) n,
    qtyOf_updateInventory items inv n]
  cases qtyOf inv n with
  | none => simp
  | some q => simp; ring

/-- Witness for C8 on a concrete catalog and an ordered list that repeats the
name `bread` (2 then 3 units): one commit leaves 10 − 5 = 5 on hand, two
commits leave 0, and `milk` is untouched. -/
theorem update_inventory_double_witness :
    qtyOf (updateInventory
        [⟨("bread").toList, 10, 50, none, none⟩, ⟨("milk").toList, 4, 60, none, none⟩]
        [⟨("bread").toList, 2⟩, ⟨("bread").toList, 3⟩]) (("bread").toList) = some 5
      ∧ qtyOf (updateInventory (updateInventory
          [⟨("bread").toList, 10, 50, none, none⟩, ⟨("milk").toList, 4, 60, none, none⟩]
          [⟨("bread").toList, 2⟩, ⟨("bread").toList, 3⟩])
          [⟨("bread").toList, 2⟩, ⟨("bread").toList, 3⟩]) (("bread").toList) = some 0
      ∧ qtyOf (updateInventory
          [⟨("bread").toList, 10, 50, none, none⟩, ⟨("milk").toList, 4, 60, none, none⟩]
          [⟨("bread").toList, 2⟩, ⟨("bread").toList, 3⟩]) (("milk").toList) = some 4 := by
  have h1 := update_inventory_double_decrements
    [⟨("bread").toList, 10, 50, none, none⟩, ⟨("milk").toList, 4, 60, none, none⟩]
    [⟨("bread").toList, 2⟩, ⟨("bread").toList, 3⟩] (("bread").toList)
  have h2 := update_inventory_double_decrements
    [⟨("bread").toList, 10, 50, none, none⟩, ⟨("milk").toList, 4, 60, none, none⟩]
    [⟨("bread").toList, 2⟩, ⟨("bread").toList, 3⟩] (("milk").toList)
  refine ⟨?_, ?_, ?_⟩
  · rw [h1.1]
    norm_num [qtyOf, soldFor, List.find?_cons, List.filter_cons]
  · rw [h1.2]
    norm_num [qtyOf, soldFor, List.find?_cons, List.filter_cons]
  · rw [h2.1]
    norm_num [qtyOf, soldFor, List.find?_cons, List.filter_cons]

/-! ## Message parser (`frontend/message_parser.py`)

The six extraction regexes and the conjunction splitter are embedded as
backtracking matchers over `List Char` with Python `re` semantics: leftmost
start position, alternatives in source order, greedy quantifiers with
backtracking.  Character classes are modelled for the ASCII range. -/

/-- Python exceptions that the modelled code can raise. -/
inductive PyExn
  | nameError (n : List Char)
  | valueError
  | httpError (details : List Char)
  | connectionError
deriving DecidableEq

deriving instance DecidableEq for Except

def isDigitCh (c : Char) : Bool := 48 ≤ c.toNat && c.toNat ≤ 57

def isNonDigit (c : Char) : Bool := !(isDigitCh c)

/-- First-success choice (the backtracking combinator behind `|` and greedy
quantifiers). -/
def altOpt {α : Type} : Option α → Option α → Option α
  | some x, _ => some x
  | none, b => b

/-- Greedy `class*`: consume as many `p`-characters as possible, backtracking
one character at a time; `k` receives the consumed prefix and the rest. -/
def starCls {α : Type} (p : Char → Bool) (k : List Char → List Char → Option α) :
    List Char → Option α
  | [] => k [] []
  | c :: cs =>
    if p c then
      altOpt (starCls p (fun con rest => k (c :: con) rest) cs) (k [] (c :: cs))
    else k [] (c :: cs)

/-- Greedy `class+`. -/
def plusCls {α : Type} (p : Char → Bool) (k : List Char → List Char → Option α)
    (s : List Char) : Option α :=
  match s with
  | [] => none
  | c :: cs => if p c then starCls p (fun con rest => k (c :: con) rest) cs else none

/-- Greedy `class?`. -/
def optCh {α : Type} (p : Char → Bool) (k : List Char → List Char → Option α) :
    List Char → Option α
  | [] => k [] []
  | c :: cs => if p c then altOpt (k [c] cs) (k [] (c :: cs)) else k [] (c :: cs)

/-- A literal token. -/
def litStr {α : Type} (tok : List Char) (k : List Char → Option α)
    (s : List Char) : Option α :=
  if tok.isPrefixOf s then k (s.drop tok.length) else none

/-- Ordered alternation of literal tokens. -/
def altLits {α : Type} (toks : List (List Char)) (k : List Char → Option α)
    (s : List Char) : Option α :=
  toks.foldr (fun t acc => altOpt (litStr t k s) acc) none

/-- `\s*`. -/
def spacesStar {α : Type} (k : List Char → Option α) : List Char → Option α :=
  starCls isPySpace (fun _ rest => k rest)

/-- The quantity group `(\d+\.?\d*)`. -/
def qtyGroup {α : Type} (k : List Char → List Char → Option α)
    (s : List Char) : Option α :=
  plusCls isDigitCh (fun d1 r1 =>
    optCh (fun c => c = '.') (fun dot r2 =>
      starCls isDigitCh (fun d2 r3 => k (d1 ++ dot ++ d2) r3) r2) r1) s

/-- The trailing name group `([^\d]+)`; the match need not reach the end. -/
def nameGroup {α : Type} (k : List Char → Option α) (s : List Char) : Option α :=
  plusCls isNonDigit (fun item _ => k item) s

/-- Pattern 1 at one position.  The source bytes of this pattern are
`(\d+\.?\d*)\s*(?:x|Ã—)\s*([^\d]+)`: the second alternative is the
two-character mojibake sequence U+00C3 `Ã`, U+2014 `—` (a mis-decoded `×`),
kept byte-for-byte; since the message is lower-cased first and `Ã`
lower-cases to `ã`, that alternative can never match. -/
def pat1At (s : List Char) : Option (List Char × List Char) :=
  qtyGroup (fun q r1 => spacesStar (fun r2 =>
    altLits [("x").toList, ['Ã', '—']] (fun r3 => spacesStar (fun r4 =>
      nameGroup (fun item => some (q, item)) r4) r3) r2) r1) s

/-- Pattern 2 at one position: `(\d+\.?\d*)\s*(?:loaves?|slices?)\s*of\s*([^\d]+)`
(the optional plural `s?` is expanded greedily-first into explicit tokens). -/
def pat2At (s : List Char) : Option (List Char × List Char) :=
  qtyGroup (fun q r1 => spacesStar (fun r2 =>
    altLits [("loaves").toList, ("loave").toList, ("slices").toList, ("slice").toList]
      (fun r3 => spacesStar (fun r4 =>
        litStr (("of").toList) (fun r5 => spacesStar (fun r6 =>
          nameGroup (fun item => some (q, item)) r6) r5) r4) r3) r2) r1) s

/-- Pattern 3 at one position:
`(\d+\.?\d*)\s*(?:kg|kilos?|kilograms?)\s*of?\s*([^\d]+)`.  Note that `of?` is
a literal `o` followed by an optional `f`. -/
def pat3At (s : List Char) : Option (List Char × List Char) :=
  qtyGroup (fun q r1 => spacesStar (fun r2 =>
    altLits [("kg").toList, ("kilos").toList, ("kilo").toList,
        ("kilograms").toList, ("kilogram").toList]
      (fun r3 => spacesStar (fun r4 =>
        litStr (("o").toList) (fun r5 => optCh (fun c => c = 'f') (fun _ r6 =>
          spacesStar (fun r7 =>
            nameGroup (fun item => some (q, item)) r7) r6) r5) r4) r3) r2) r1) s

/-- Pattern 4 at one position:
`(\d+\.?\d*)\s*(?:l|liters?|litres?)\s*of?\s*([^\d]+)`. -/
def pat4At (s : List Char) : Option (List Char × List Char) :=
  qtyGroup (fun q r1 => spacesStar (fun r2 =>
    altLits [("l").toList, ("liters").toList, ("liter").toList,
        ("litres").toList, ("litre").toList]
      (fun r3 => spacesStar (fun r4 =>
        litStr (("o").toList) (fun r5 => optCh (fun c => c = 'f') (fun _ r6 =>
          spacesStar (fun r7 =>
            nameGroup (fun item => some (q, item)) r7) r6) r5) r4) r3) r2) r1) s

/-- Pattern 5 at one position: `(\d+\.?\d*)\s*([^\d]+)`. -/
def pat5At (s : List Char) : Option (List Char × List Char) :=
  qtyGroup (fun q r1 => spacesStar (fun r2 =>
    nameGroup (fun item => some (q, item)) r2) r1) s

/-- Pattern 6 at one position: `([^\d]+)\s*(\d+\.?\d*)` — group 1 is the name
text, group 2 the numeral, in that order. -/
def pat6At (s : List Char) : Option (List Char × List Char) :=
  plusCls isNonDigit (fun g1 r1 => spacesStar (fun r2 =>
    qtyGroup (fun q _ => some (g1, q)) r2) r1) s

/-- `re.search`: try the pattern at each start position from the left. -/
def reSearch {β : Type} (f : List Char → Option β) : List Char → Option β
  | [] => f []
  | c :: cs => altOpt (f (c :: cs)) (reSearch f cs)

/-- The pattern loop of `parse_order_message`: first pattern (in source order)
with a match anywhere in the fragment wins; groups are returned in regex
order. -/
def tryPatterns (part : List Char) : Option (List Char × List Char) :=
  altOpt (reSearch pat1At part) (altOpt (reSearch pat2At part)
    (altOpt (reSearch pat3At part) (altOpt (reSearch pat4At part)
      (altOpt (reSearch pat5At part) (reSearch pat6At part)))))

/-- The anchored fallback `re.match(r'(\d+\.?\d*)\s*(.+)', part)`. -/
def matchLeading (part : List Char) : Option (List Char × List Char) :=
  qtyGroup (fun q r1 => spacesStar (fun r2 =>
    plusCls (fun c => !(c = '\n')) (fun g2 _ => some (q, g2)) r2) r1) part

/-- ASCII word character, for `\b` boundaries. -/
def isWordChar (c : Char) : Bool :=
  (48 ≤ c.toNat && c.toNat ≤ 57) || (65 ≤ c.toNat && c.toNat ≤ 90)
    || (97 ≤ c.toNat && c.toNat ≤ 122) || c = '_'

/-- `\b` before a token that starts with a word character: the previous
character (if any) must not be a word character. -/
def noWordBefore : Option Char → Bool
  | none => true
  | some c => !(isWordChar c)

/-- `\b` after a token that ends with a word character. -/
def noWordAfter : List Char → Bool
  | [] => true
  | c :: _ => !(isWordChar c)

/-- A match of the splitter regex `\band\b|\bplus\b|\b,\s*` at this position,
returning the separator length.  Before `,` (a non-word character) `\b` holds
exactly when the previous character is a word character. -/
def conjMatchAt (prev : Option Char) (s : List Char) : Option Nat :=
  if noWordBefore prev ∧ (("and").toList).isPrefixOf s ∧ noWordAfter (s.drop 3) then
    some 3
  else if noWordBefore prev ∧ (("plus").toList).isPrefixOf s ∧ noWordAfter (s.drop 4) then
    some 4
  else
    match s with
    | ',' :: rest =>
      match prev with
      | some c => if isWordChar c then some (1 + (rest.takeWhile isPySpace).length) else none
      | none => none
    | _ => none

/-- `re.split(r'\band\b|\bplus\b|\b,\s*', message)`, scanning left to right.
The fuel is structural and always at least the remaining length. -/
def splitConjFuel : Nat → Option Char → List Char → List Char → List (List Char)
  | _, _, acc, [] => [acc.reverse]
  | 0, _, acc, s => [acc.reverse ++ s]
  | fuel + 1, prev, acc, c :: rest =>
    match conjMatchAt prev (c :: rest) with
    | some len =>
      acc.reverse :: splitConjFuel fuel (some (((c :: rest).take len).getLastD c)) []
        ((c :: rest).drop len)
    | none => splitConjFuel fuel (some c) (c :: acc) rest

def splitConj (s : List Char) : List (List Char) :=
  splitConjFuel s.length none [] s

example : splitConj (("2 bread and 1 milk").toList)
    = [("2 bread ").toList, (" 1 milk").toList] := by decide
example : splitConj (("a, b").toList) = [("a").toList, ("b").toList] := by decide
example : splitConj (("sand").toList) = [("sand").toList] := by decide

/-- The article alternation `\bof\b|\bthe\b|\ba\b|\ban\b`, first token that
matches at this position with both boundaries. -/
def articleAt (prev : Option Char) (s : List Char) : Option Nat :=
  ([("of").toList, ("the").toList, ("a").toList, ("an").toList].find? fun t =>
      noWordBefore prev && t.isPrefixOf s && noWordAfter (s.drop t.length)).map
    List.length

/-- `re.sub(r'\bof\b|\bthe\b|\ba\b|\ban\b', '', item)`: delete every match,
scanning the original string left to right. -/
def subArticlesFuel : Nat → Option Char → List Char → List Char
  | _, _, [] => []
  | 0, _, s => s
  | fuel + 1, prev, c :: rest =>
    match articleAt prev (c :: rest) with
    | some len =>
      subArticlesFuel fuel (some (((c :: rest).take len).getLastD c)) ((c :: rest).drop len)
    | none => c :: subArticlesFuel fuel (some c) rest

def subArticles (s : List Char) : List Char := subArticlesFuel s.length none s

example : subArticles (("loaves of bread").toList) = ("loaves  bread").toList := by decide
example : subArticles (("an apple").toList) = (" apple").toList := by decide
example : subArticles (("bread").toList) = ("bread").toList := by decide

/-- `re.sub(r'\s+', ' ', item)`: collapse every whitespace run to one space;
the flag records whether we are inside a run. -/
def collapseSpacesAux : Bool → List Char → List Char
  | _, [] => []
  | inRun, c :: rest =>
    if isPySpace c then
      if inRun then collapseSpacesAux true rest
      else ' ' :: collapseSpacesAux true rest
    else c :: collapseSpacesAux false rest

def collapseSpaces (s : List Char) : List Char := collapseSpacesAux false s

example : collapseSpaces (("a  b").toList) = ("a b").toList := by decide

def digitsToNat (ds : List Char) : Nat :=
  ds.foldl (fun acc c => 10 * acc + (c.toNat - 48)) 0

/-- The value of the decimal numeral `<int>.<frac>`. -/
def decimalVal (int frac : List Char) : Rat :=
  (digitsToNat int : Rat) + (digitsToNat frac : Rat) / (10 : Rat) ^ frac.length

/-- A Python float as the parser can observe it: a finite (rational) value or
one of the non-finite values `inf`, `-inf`, `nan` that `float()` produces for
the infinity/NaN spellings.  (Finite values are modelled exactly as rationals;
double rounding preserves everything the claims speak about — sign, zero and
the fallback constant 1.) -/
inductive PyFloat
  | val (q : Rat)
  | inf
  | negInf
  | nan
deriving DecidableEq

/-- `float()` after whitespace stripping and sign splitting: the lowercase
spellings `inf`, `infinity`, `nan` (the parser's inputs are slices of the
lower-cased message, so only lowercase can occur), else a decimal numeral
`<digits>`, `<digits>.` or `<digits>.<digits>`, negated under a `-` sign;
anything else raises `ValueError`.  Exponents, leading-dot decimals and
digit-group underscores, which `float()` also accepts, cannot occur in the
parser's groups (the numeral groups match `\d+\.?\d*` and the name group has
no digits). -/
def pyFloatUnsigned (neg : Bool) (u : List Char) : Except PyExn PyFloat :=
  if u = ("inf").toList ∨ u = ("infinity").toList then
    Except.ok (if neg then PyFloat.negInf else PyFloat.inf)
  else if u = ("nan").toList then
    Except.ok PyFloat.nan
  else
    let intPart := u.takeWhile isDigitCh
    let rest := u.drop intPart.length
    if intPart.isEmpty then Except.error PyExn.valueError
    else
      match rest with
      | [] =>
        Except.ok (PyFloat.val
          (if neg then -(decimalVal intPart []) else decimalVal intPart []))
      | c :: frac =>
        if c = '.' ∧ frac.all isDigitCh then
          Except.ok (PyFloat.val
            (if neg then -(decimalVal intPart frac) else decimalVal intPart frac))
        else Except.error PyExn.valueError

/-- `float(s)`: strip surrounding whitespace, take one optional sign, then
convert the unsigned remainder. -/
def pyFloat (s : List Char) : Except PyExn PyFloat :=
  match pyStrip s with
  | '+' :: r => pyFloatUnsigned false r
  | '-' :: r => pyFloatUnsigned true r
  | t => pyFloatUnsigned false t

example : pyFloat (("2.5").toList) = Except.ok (PyFloat.val (decimalVal (("2").toList) (("5").toList))) := by rfl
example : pyFloat (("-inf ").toList) = Except.ok PyFloat.negInf := by decide
example : pyFloat ((" +inf").toList) = Except.ok PyFloat.inf := by decide
example : pyFloat (("infinity").toList) = Except.ok PyFloat.inf := by decide
example : pyFloat (("nan").toList) = Except.ok PyFloat.nan := by decide
example : pyFloat (("bread ").toList) = Except.error PyExn.valueError := by decide
example : pyFloat (("- inf").toList) = Except.error PyExn.valueError := by decide
example : pyFloat (("+").toList) = Except.error PyExn.valueError := by decide
example : pyFloat ((".").toList) = Except.error PyExn.valueError := by decide

/-- The body of the fragment loop of `parse_order_message` for one non-empty
stripped fragment: first matching pattern, else the anchored leading-number
fallback, else the fragment itself with quantity 1. -/
def handlePart (part : List Char) : Except PyExn (List Char × PyFloat) :=
  match tryPatterns part with
  | some (g1, g2) =>
    match pyFloat g1 with
    | Except.error e => Except.error e
    | Except.ok q =>
      let item := pyStrip g2
      let item := pyStrip (subArticles item)
      let item := collapseSpaces item
      Except.ok (item, q)
  | none =>
    match matchLeading part with
    | some (g1, g2) =>
      match pyFloat g1 with
      | Except.error e => Except.error e
      | Except.ok q => Except.ok (pyStrip g2, q)
    | none => Except.ok (part, PyFloat.val 1)

/-- The fragment loop, appending one pair per processed fragment. -/
def parseLoop : List (List Char) → List (List Char × PyFloat) →
    Except PyExn (List (List Char × PyFloat))
  | [], items => Except.ok items
  | part :: rest, items =>
    let p := pyStrip part
    if p.isEmpty then parseLoop rest items
    else
      match handlePart p with
      | Except.ok pair => parseLoop rest (items ++ [pair])
      | Except.error e => Except.error e

/-- `MessageParser.parse_order_message`. -/
def parseOrderMessage (message : List Char) :
    Except PyExn (List (List Char × PyFloat)) :=
  parseLoop (splitConj (pyStrip (pyLower message))) []

example : parseOrderMessage (("-inf 5").toList)
    = Except.ok [((("5").toList), PyFloat.negInf)] := by decide
example : parseOrderMessage (("nan 2").toList)
    = Except.ok [((("2").toList), PyFloat.nan)] := by decide

example : tryPatterns (("bread 2").toList)
    = some ((("bread ").toList), (("2").toList)) := by decide
example : tryPatterns (("bread").toList) = none := by decide
example : matchLeading (("bread").toList) = none := by decide
example : tryPatterns (("2 x bread").toList)
    = some ((("2").toList), (("bread").toList)) := by decide
example : reSearch pat1At ['2', 'Ã', '—', 'b'] = some ((("2").toList), ['b']) := by decide
example : pyLower ['2', 'Ã', '—', 'b'] = ['2', 'ã', '—', 'b'] := by decide
example : reSearch pat1At (pyLower ['2', 'Ã', '—', 'b']) = none := by decide
example : tryPatterns (("2 loaves of bread").toList)
    = some ((("2").toList), (("bread").toList)) := by decide
example : tryPatterns (("1kg sugar").toList)
    = some ((("1").toList), (("kg sugar").toList)) := by decide
example : tryPatterns (("1kg of sugar").toList)
    = some ((("1").toList), (("sugar").toList)) := by decide
example : tryPatterns (("2.5 kilos of rice").toList)
    = some ((("2.5").toList), (("rice").toList)) := by decide
example : tryPatterns (("1l milk").toList)
    = some ((("1").toList), (("l milk").toList)) := by decide
example : tryPatterns (("1 liter of milk").toList)
    = some ((("1").toList), (("milk").toList)) := by decide
example : tryPatterns (("3 slices of ham").toList)
    = some ((("3").toList), (("ham").toList)) := by decide
example : tryPatterns (("10").toList) = none := by decide
example : tryPatterns (("a5b6").toList)
    = some ((("5").toList), (("b").toList)) := by decide
example : tryPatterns (("25.").toList)
    = some ((("25").toList), ((".").toList)) := by decide
example : tryPatterns (("ab 12.5cd").toList)
    = some ((("12.5").toList), (("cd").toList)) := by decide
example : reSearch pat6At (("ab 12.5cd").toList)
    = some ((("ab ").toList), (("12.5").toList)) := by decide
example : matchLeading (("10").toList)
    = some ((("1").toList), (("0").toList)) := by decide
example : splitConj ((",x, y").toList) = [((",x").toList), (("y").toList)] := by decide

/-- C6: the parser is not total.  On the utterance `"bread 2"` — the very shape
the source comments document for the name-then-number pattern — patterns 1–5
fail, pattern 6 matches with group 1 = `"bread "`, and the loop body applies
`float` to group 1, raising `ValueError` out of `parse_order_message`. -/
theorem parse_raises_on_name_number :
    parseOrderMessage (("bread 2").toList) = Except.error PyExn.valueError := by
  decide

/-- C10 (counterexample): the utterance `"0 bread"` parses successfully to a
single pair whose quantity is the parsed numeral `0`, which is not `> 0`. -/
theorem parse_zero_quantity_cex :
    parseOrderMessage (("0 bread").toList)
        = Except.ok [((("bread").toList), PyFloat.val (decimalVal (("0").toList) []))]
      ∧ ¬ (0 : Rat) < decimalVal (("0").toList) [] := by
  refine ⟨by rfl, ?_⟩
  have h : digitsToNat (("0").toList) = 0 := by decide
  simp [decimalVal, h, digitsToNat]

theorem decimalVal_nonneg (int frac : List Char) : 0 ≤ decimalVal int frac := by
  unfold decimalVal
  have h1 : (0 : Rat) ≤ (digitsToNat int : Rat) := Nat.cast_nonneg _
  have h2 : (0 : Rat) ≤ (digitsToNat frac : Rat) / (10 : Rat) ^ frac.length :=
    div_nonneg (Nat.cast_nonneg _) (by positivity)
  linarith

theorem altOpt_some {α : Type} (y : α) (b : Option α) : altOpt (some y) b = some y := rfl

theorem altOpt_none {α : Type} (b : Option α) : altOpt none b = b := rfl

theorem altOpt_some_elim {α : Type} {a b : Option α} {x : α} (h : altOpt a b = some x) :
    a = some x ∨ (a = none ∧ b = some x) := by
  cases a with
  | some y => rw [altOpt_some] at h; exact Or.inl h
  | none => rw [altOpt_none] at h; exact Or.inr ⟨rfl, h⟩

/-- Every result of `starCls` comes from the continuation applied to a
consumed prefix all of whose characters satisfy the class. -/
theorem starCls_post {α : Type} (p : Char → Bool) (Q : α → Prop) :
    ∀ (k : List Char → List Char → Option α) (s : List Char) (x : α),
      (∀ con rest y, con.all p = true → k con rest = some y → Q y) →
      starCls p k s = some x → Q x := by
  intro k s
  induction s generalizing k with
  | nil =>
    intro x hk h
    simp only [starCls] at h
    exact hk [] [] x rfl h
  | cons c cs ih =>
    intro x hk h
    simp only [starCls] at h
    by_cases hc : p c = true
    · rw [if_pos hc] at h
      cases halt : starCls p (fun con rest => k (c :: con) rest) cs with
      | some y =>
        rw [halt, altOpt_some] at h
        injection h with h'
        subst h'
        exact ih (fun con rest => k (c :: con) rest) y
          (fun con rest z hall hkz =>
            hk (c :: con) rest z (by simp [List.all_cons, hc, hall]) hkz) halt
      | none =>
        rw [halt, altOpt_none] at h
        exact hk [] (c :: cs) x rfl h
    · rw [if_neg hc] at h
      exact hk [] (c :: cs) x rfl h

theorem plusCls_post {α : Type} (p : Char → Bool) (Q : α → Prop)
    (k : List Char → List Char → Option α)
    (hk : ∀ con rest y, con ≠ [] → con.all p = true → k con rest = some y → Q y) :
    ∀ (s : List Char) (x : α), plusCls p k s = some x → Q x := by
  intro s x h
  cases s with
  | nil => simp [plusCls] at h
  | cons c cs =>
    simp only [plusCls] at h
    by_cases hc : p c = true
    · rw [if_pos hc] at h
      exact starCls_post p Q _ cs x
        (fun con rest y hall hky =>
          hk (c :: con) rest y (by simp) (by simp [List.all_cons, hc, hall]) hky) h
    · rw [if_neg hc] at h
      cases h

theorem optCh_post {α : Type} (p : Char → Bool) (Q : α → Prop)
    (k : List Char → List Char → Option α)
    (hk : ∀ con rest y, con.all p = true → k con rest = some y → Q y) :
    ∀ (s : List Char) (x : α), optCh p k s = some x → Q x := by
  intro s x h
  cases s with
  | nil =>
    simp only [optCh] at h
    exact hk [] [] x rfl h
  | cons c cs =>
    simp only [optCh] at h
    by_cases hc : p c = true
    · rw [if_pos hc] at h
      cases h1 : k [c] cs with
      | some y =>
        rw [h1, altOpt_some] at h
        injection h with h'
        subst h'
        exact hk [c] cs y (by simp [List.all_cons, hc]) h1
      | none =>
        rw [h1, altOpt_none] at h
        exact hk [] (c :: cs) x rfl h
    · rw [if_neg hc] at h
      exact hk [] (c :: cs) x rfl h

theorem litStr_post {α : Type} (Q : α → Prop) (tok : List Char)
    (k : List Char → Option α) (hk : ∀ rest y, k rest = some y → Q y) :
    ∀ (s : List Char) (x : α), litStr tok k s = some x → Q x := by
  intro s x h
  simp only [litStr] at h
  split at h
  · exact hk _ x h
  · cases h

theorem altLits_post {α : Type} (Q : α → Prop) (k : List Char → Option α)
    (hk : ∀ rest y, k rest = some y → Q y) :
    ∀ (toks : List (List Char)) (s : List Char) (x : α),
      altLits toks k s = some x → Q x := by
  intro toks
  induction toks with
  | nil => intro s x h; simp [altLits] at h
  | cons t ts ih =>
    intro s x h
    simp only [altLits, List.foldr_cons] at h
    cases h1 : litStr t k s with
    | some y =>
      rw [h1, altOpt_some] at h
      injection h with h'
      subst h'
      exact litStr_post Q t k hk s y h1
    | none =>
      rw [h1, altOpt_none] at h
      exact ih s x h

theorem spacesStar_post {α : Type} (Q : α → Prop) (k : List Char → Option α)
    (hk : ∀ rest y, k rest = some y → Q y) :
    ∀ (s : List Char) (x : α), spacesStar k s = some x → Q x := by
  intro s x h
  exact starCls_post isPySpace Q _ s x (fun _ rest y _ hky => hk rest y hky) h

theorem nameGroup_post {α : Type} (Q : α → Prop) (k : List Char → Option α)
    (hk : ∀ item y, k item = some y → Q y) :
    ∀ (s : List Char) (x : α), nameGroup k s = some x → Q x := by
  intro s x h
  exact plusCls_post isNonDigit Q _ (fun con rest y _ _ hky => hk con y hky) s x h

theorem reSearch_post {β : Type} (Q : β → Prop) (f : List Char → Option β)
    (hf : ∀ s x, f s = some x → Q x) :
    ∀ (s : List Char) (x : β), reSearch f s = some x → Q x := by
  intro s
  induction s with
  | nil => intro x h; simp only [reSearch] at h; exact hf [] x h
  | cons c cs ih =>
    intro x h
    simp only [reSearch] at h
    cases h1 : f (c :: cs) with
    | some y =>
      rw [h1, altOpt_some] at h
      injection h with h'
      subst h'
      exact hf _ y h1
    | none =>
      rw [h1, altOpt_none] at h
      exact ih x h

/-- The characters a quantity group `(\d+\.?\d*)` can capture. -/
def qtyChars (g : List Char) : Prop := ∀ c ∈ g, isDigitCh c = true ∨ c = '.'

theorem qtyGroup_post {α : Type} (Q : α → Prop) (k : List Char → List Char → Option α)
    (hk : ∀ g rest y, qtyChars g → k g rest = some y → Q y) :
    ∀ (s : List Char) (x : α), qtyGroup k s = some x → Q x := by
  intro s x h
  simp only [qtyGroup] at h
  refine plusCls_post isDigitCh Q _ ?_ s x h
  intro d1 r1 y _ hd1 hy
  refine optCh_post (fun c => c = '.') Q _ ?_ r1 y hy
  intro dot r2 y2 hdot hy2
  refine starCls_post isDigitCh Q _ r2 y2 ?_ hy2
  intro d2 r3 y3 hd2 hy3
  refine hk (d1 ++ dot ++ d2) r3 y3 ?_ hy3
  intro c hc
  rcases List.mem_append.mp hc with hc1 | hc2
  · rcases List.mem_append.mp hc1 with hca | hcb
    · exact Or.inl (List.all_eq_true.mp hd1 c hca)
    · exact Or.inr (of_decide_eq_true (List.all_eq_true.mp hdot c hcb))
  · exact Or.inl (List.all_eq_true.mp hd2 c hc2)

theorem pat1At_group1 : ∀ (s : List Char) (x : List Char × List Char),
    pat1At s = some x → qtyChars x.1 := by
  intro s x h
  simp only [pat1At] at h
  refine qtyGroup_post (fun y => qtyChars y.1) _ ?_ s x h
  intro g rest y hg hy
  refine spacesStar_post (fun y => qtyChars y.1) _ ?_ rest y hy
  intro r2 y2 h2
  refine altLits_post (fun y => qtyChars y.1) _ ?_ _ r2 y2 h2
  intro r3 y3 h3
  refine spacesStar_post (fun y => qtyChars y.1) _ ?_ r3 y3 h3
  intro r4 y4 h4
  refine nameGroup_post (fun y => qtyChars y.1) _ ?_ r4 y4 h4
  intro item y5 h5
  injection h5 with h5
  subst h5
  exact hg

theorem pat2At_group1 : ∀ (s : List Char) (x : List Char × List Char),
    pat2At s = some x → qtyChars x.1 := by
  intro s x h
  simp only [pat2At] at h
  refine qtyGroup_post (fun y => qtyChars y.1) _ ?_ s x h
  intro g rest y hg hy
  refine spacesStar_post (fun y => qtyChars y.1) _ ?_ rest y hy
  intro r2 y2 h2
  refine altLits_post (fun y => qtyChars y.1) _ ?_ _ r2 y2 h2
  intro r3 y3 h3
  refine spacesStar_post (fun y => qtyChars y.1) _ ?_ r3 y3 h3
  intro r4 y4 h4
  refine litStr_post (fun y => qtyChars y.1) _ _ ?_ r4 y4 h4
  intro r5 y5 h5
  refine spacesStar_post (fun y => qtyChars y.1) _ ?_ r5 y5 h5
  intro r6 y6 h6
  refine nameGroup_post (fun y => qtyChars y.1) _ ?_ r6 y6 h6
  intro item y7 h7
  injection h7 with h7
  subst h7
  exact hg

theorem pat3At_group1 : ∀ (s : List Char) (x : List Char × List Char),
    pat3At s = some x → qtyChars x.1 := by
  intro s x h
  simp only [pat3At] at h
  refine qtyGroup_post (fun y => qtyChars y.1) _ ?_ s x h
  intro g rest y hg hy
  refine spacesStar_post (fun y => qtyChars y.1) _ ?_ rest y hy
  intro r2 y2 h2
  refine altLits_post (fun y => qtyChars y.1) _ ?_ _ r2 y2 h2
  intro r3 y3 h3
  refine spacesStar_post (fun y => qtyChars y.1) _ ?_ r3 y3 h3
  intro r4 y4 h4
  refine litStr_post (fun y => qtyChars y.1) _ _ ?_ r4 y4 h4
  intro r5 y5 h5
  refine optCh_post (fun c => c = 'f') (fun y => qtyChars y.1) _ ?_ r5 y5 h5
  intro con r6 y6 _ h6
  refine spacesStar_post (fun y => qtyChars y.1) _ ?_ r6 y6 h6
  intro r7 y7 h7
  refine nameGroup_post (fun y => qtyChars y.1) _ ?_ r7 y7 h7
  intro item y8 h8
  injection h8 with h8
  subst h8
  exact hg

theorem pat4At_group1 : ∀ (s : List Char) (x : List Char × List Char),
    pat4At s = some x → qtyChars x.1 := by
  intro s x h
  simp only [pat4At] at h
  refine qtyGroup_post (fun y => qtyChars y.1) _ ?_ s x h
  intro g rest y hg hy
  refine spacesStar_post (fun y => qtyChars y.1) _ ?_ rest y hy
  intro r2 y2 h2
  refine altLits_post (fun y => qtyChars y.1) _ ?_ _ r2 y2 h2
  intro r3 y3 h3
  refine spacesStar_post (fun y => qtyChars y.1) _ ?_ r3 y3 h3
  intro r4 y4 h4
  refine litStr_post (fun y => qtyChars y.1) _ _ ?_ r4 y4 h4
  intro r5 y5 h5
  refine optCh_post (fun c => c = 'f') (fun y => qtyChars y.1) _ ?_ r5 y5 h5
  intro con r6 y6 _ h6
  refine spacesStar_post (fun y => qtyChars y.1) _ ?_ r6 y6 h6
  intro r7 y7 h7
  refine nameGroup_post (fun y => qtyChars y.1) _ ?_ r7 y7 h7
  intro item y8 h8
  injection h8 with h8
  subst h8
  exact hg

theorem pat5At_group1 : ∀ (s : List Char) (x : List Char × List Char),
    pat5At s = some x → qtyChars x.1 := by
  intro s x h
  simp only [pat5At] at h
  refine qtyGroup_post (fun y => qtyChars y.1) _ ?_ s x h
  intro g rest y hg hy
  refine spacesStar_post (fun y => qtyChars y.1) _ ?_ rest y hy
  intro r2 y2 h2
  refine nameGroup_post (fun y => qtyChars y.1) _ ?_ r2 y2 h2
  intro item y3 h3
  injection h3 with h3
  subst h3
  exact hg

theorem pat6At_group1 : ∀ (s : List Char) (x : List Char × List Char),
    pat6At s = some x → x.1 ≠ [] ∧ x.1.all isNonDigit = true := by
  intro s x h
  simp only [pat6At] at h
  refine plusCls_post isNonDigit
    (fun y => y.1 ≠ [] ∧ y.1.all isNonDigit = true) _ ?_ s x h
  intro g1 r1 y hne hall hy
  refine spacesStar_post (fun y => y.1 ≠ [] ∧ y.1.all isNonDigit = true) _ ?_ r1 y hy
  intro r2 y2 h2
  refine qtyGroup_post (fun y => y.1 ≠ [] ∧ y.1.all isNonDigit = true) _ ?_ r2 y2 h2
  intro g r3 y3 _ h3
  injection h3 with h3
  subst h3
  exact ⟨hne, hall⟩

theorem matchLeading_group1 : ∀ (part : List Char) (x : List Char × List Char),
    matchLeading part = some x → qtyChars x.1 := by
  intro part x h
  simp only [matchLeading] at h
  refine qtyGroup_post (fun y => qtyChars y.1) _ ?_ part x h
  intro g rest y hg hy
  refine spacesStar_post (fun y => qtyChars y.1) _ ?_ rest y hy
  intro r2 y2 h2
  refine plusCls_post (fun c => !(c = '\n')) (fun y => qtyChars y.1) _ ?_ r2 y2 h2
  intro g2 r3 y3 _ _ h3
  injection h3 with h3
  subst h3
  exact hg

/-- Every group-1 text the pattern loop can deliver: a quantity group
(digits and dots, patterns 1–5) or pattern 6's non-empty digit-free name
text. -/
theorem tryPatterns_group1 (part : List Char) (x : List Char × List Char)
    (h : tryPatterns part = some x) :
    qtyChars x.1 ∨ (x.1 ≠ [] ∧ x.1.all isNonDigit = true) := by
  simp only [tryPatterns] at h
  rcases altOpt_some_elim h with h1 | ⟨_, h⟩
  · exact Or.inl (reSearch_post (fun y => qtyChars y.1) pat1At pat1At_group1 part x h1)
  rcases altOpt_some_elim h with h2 | ⟨_, h⟩
  · exact Or.inl (reSearch_post (fun y => qtyChars y.1) pat2At pat2At_group1 part x h2)
  rcases altOpt_some_elim h with h3 | ⟨_, h⟩
  · exact Or.inl (reSearch_post (fun y => qtyChars y.1) pat3At pat3At_group1 part x h3)
  rcases altOpt_some_elim h with h4 | ⟨_, h⟩
  · exact Or.inl (reSearch_post (fun y => qtyChars y.1) pat4At pat4At_group1 part x h4)
  rcases altOpt_some_elim h with h5 | ⟨_, h⟩
  · exact Or.inl (reSearch_post (fun y => qtyChars y.1) pat5At pat5At_group1 part x h5)
  exact Or.inr (reSearch_post (fun y => y.1 ≠ [] ∧ y.1.all isNonDigit = true)
    pat6At pat6At_group1 part x h)

theorem pyFloatUnsigned_false_val {u : List Char} {q : Rat}
    (h : pyFloatUnsigned false u = Except.ok (PyFloat.val q)) : 0 ≤ q := by
  simp only [pyFloatUnsigned] at h
  split at h
  · simp at h
  · split at h
    · simp at h
    · split at h
      · simp at h
      · split at h
        · simp only [Bool.false_eq_true, if_false, Except.ok.injEq, PyFloat.val.injEq] at h
          rw [← h]
          exact decimalVal_nonneg _ _
        · split at h
          · simp only [Bool.false_eq_true, if_false, Except.ok.injEq, PyFloat.val.injEq] at h
            rw [← h]
            exact decimalVal_nonneg _ _
          · simp at h

theorem pyFloatUnsigned_val_has_digit {neg : Bool} {u : List Char} {q : Rat}
    (h : pyFloatUnsigned neg u = Except.ok (PyFloat.val q)) :
    ∃ c ∈ u, isDigitCh c = true := by
  simp only [pyFloatUnsigned] at h
  split at h
  · cases neg <;> simp at h
  · split at h
    · simp at h
    · split at h
      · simp at h
      · rename_i hne
        cases htw : u.takeWhile isDigitCh with
        | nil => rw [htw] at hne; simp at hne
        | cons c cs =>
          have hc : c ∈ u.takeWhile isDigitCh := by
            rw [htw]; exact List.mem_cons_self c cs
          exact ⟨c, (List.takeWhile_prefix isDigitCh).subset hc,
            List.mem_takeWhile_imp hc⟩

theorem pyFloat_val_nonneg_of_qtyChars {g : List Char} {q : Rat}
    (hg : qtyChars g) (h : pyFloat g = Except.ok (PyFloat.val q)) : 0 ≤ q := by
  simp only [pyFloat] at h
  split at h
  · rename_i r heq
    exfalso
    have hplus : '+' ∈ g := mem_pyStrip (by rw [heq]; exact List.mem_cons_self _ _)
    rcases hg '+' hplus with hd | hd
    · exact absurd hd (by decide)
    · exact absurd hd (by decide)
  · rename_i r heq
    exfalso
    have hminus : '-' ∈ g := mem_pyStrip (by rw [heq]; exact List.mem_cons_self _ _)
    rcases hg '-' hminus with hd | hd
    · exact absurd hd (by decide)
    · exact absurd hd (by decide)
  · exact pyFloatUnsigned_false_val h

theorem pyFloat_no_val_of_nonDigit {g : List Char} {q : Rat}
    (hall : g.all isNonDigit = true) (h : pyFloat g = Except.ok (PyFloat.val q)) :
    False := by
  have hdig : ∀ c ∈ g, isDigitCh c = false := by
    intro c hc
    have := List.all_eq_true.mp hall c hc
    simpa [isNonDigit] using this
  simp only [pyFloat] at h
  split at h
  · rename_i r heq
    obtain ⟨c, hcu, hcd⟩ := pyFloatUnsigned_val_has_digit h
    have hcg : c ∈ g := mem_pyStrip (by rw [heq]; exact List.mem_cons_of_mem _ hcu)
    rw [hdig c hcg] at hcd
    cases hcd
  · rename_i r heq
    obtain ⟨c, hcu, hcd⟩ := pyFloatUnsigned_val_has_digit h
    have hcg : c ∈ g := mem_pyStrip (by rw [heq]; exact List.mem_cons_of_mem _ hcu)
    rw [hdig c hcg] at hcd
    cases hcd
  · obtain ⟨c, hcu, hcd⟩ := pyFloatUnsigned_val_has_digit h
    have hcg : c ∈ g := mem_pyStrip hcu
    rw [hdig c hcg] at hcd
    cases hcd

theorem handlePart_no_neg {part : List Char} {pair : List Char × PyFloat}
    (h : handlePart part = Except.ok pair) :
    ∀ q : Rat, pair.2 = PyFloat.val q → 0 ≤ q := by
  intro q hq
  simp only [handlePart] at h
  split at h
  · rename_i g1 g2 htry
    split at h
    · cases h
    · rename_i f hpf
      rw [Except.ok.injEq] at h
      rw [← h] at hq
      have hf : f = PyFloat.val q := hq
      rcases tryPatterns_group1 part (g1, g2) htry with hqty | ⟨_, hall⟩
      · exact pyFloat_val_nonneg_of_qtyChars hqty (hf ▸ hpf)
      · exact (pyFloat_no_val_of_nonDigit hall (hf ▸ hpf)).elim
  · rename_i htry
    split at h
    · rename_i g1 g2 hml
      split at h
      · cases h
      · rename_i f hpf
        rw [Except.ok.injEq] at h
        rw [← h] at hq
        have hf : f = PyFloat.val q := hq
        exact pyFloat_val_nonneg_of_qtyChars
          (matchLeading_group1 part (g1, g2) hml) (hf ▸ hpf)
    · rw [Except.ok.injEq] at h
      rw [← h] at hq
      have h1 : PyFloat.val 1 = PyFloat.val q := hq
      injection h1 with h1
      rw [← h1]
      norm_num

theorem parseLoop_no_neg (parts : List (List Char)) :
    ∀ acc result,
      (∀ p ∈ acc, ∀ q : Rat, p.2 = PyFloat.val q → 0 ≤ q) →
      parseLoop parts acc = Except.ok result →
      ∀ p ∈ result, ∀ q : Rat, p.2 = PyFloat.val q → 0 ≤ q := by
  induction parts with
  | nil =>
    intro acc result hacc h
    rw [parseLoop, Except.ok.injEq] at h
    exact h ▸ hacc
  | cons part rest ih =>
    intro acc result hacc h
    rw [parseLoop] at h
    split at h
    · exact ih acc result hacc h
    · split at h
      · refine ih _ result ?_ h
        intro p hp
        rcases List.mem_append.mp hp with hp | hp
        · exact hacc p hp
        · rw [List.mem_singleton.mp hp]
          exact handlePart_no_neg (by assumption)
      · exact absurd h (by simp)

/-- C10 (amended): no quantity produced by a successful parse is a negative
finite number — every finite quantity is non-negative (the quantity groups of
patterns 1–5 and of the anchored fallback capture unsigned decimal numerals,
and the no-match fallback quantity is 1), while the non-finite float values
`inf`, `-inf` and `nan` can enter only through the name group of the
name-then-number pattern (e.g. `"-inf 5"`).  Strict positivity fails on zero
numerals such as `"0 bread"`. -/
theorem parse_no_negative_quantity (message : List Char)
    (result : List (List Char × PyFloat))
    (h : parseOrderMessage message = Except.ok result) :
    ∀ p ∈ result, ∀ q : Rat, p.2 = PyFloat.val q → 0 ≤ q :=
  parseLoop_no_neg (splitConj (pyStrip (pyLower message))) [] result
    (by intro p hp; cases hp) h

/-- Witness for the amended C10 theorem: the fallback pair of `"bread"`
carries the finite quantity 1, which is non-negative. -/
theorem parse_no_negative_quantity_witness : (0 : Rat) ≤ 1 :=
  parse_no_negative_quantity (("bread").toList)
    [((("bread").toList), PyFloat.val 1)] (by rfl)
    ((("bread").toList), PyFloat.val 1) (List.mem_singleton.mpr rfl) 1 rfl

/-! ## Inventory checker as a state transformer (frame property) -/

/-- The mutable state of an `InventoryChecker` instance: the catalog loaded at
construction, plus the immutable file path. -/
structure CheckerState where
  inventory_file : List Char
  inventory : List InvItem

/-- `check_availability` as a state transformer.  Translating the method body
statement by statement, it only reads `self.inventory` (through
`_find_matching_item` and the similar-items scan) and appends to local lists;
no statement assigns `self.inventory` or a record field, so the state component
is returned unchanged. -/
def checkAvailabilityS (st : CheckerState) (now : List Char)
    (items : List (List Char × Rat)) : CheckerState × MatchResult :=
  (st, checkAvailability st.inventory now items)

/-- `_find_matching_item` as a state transformer: reads only. -/
def findMatchingItemS (st : CheckerState) (name : List Char) :
    CheckerState × Option InvItem :=
  (st, findMatchingItem st.inventory name)

/-- `update_inventory` as a state transformer: the one catalog mutator. -/
def updateInventoryS (st : CheckerState) (items : List OrderedItem) : CheckerState :=
  ⟨st.inventory_file, updateInventory st.inventory items⟩

/-- C9: availability checking is read-only with respect to the catalog — the
checker state (in particular every record and its quantity) after
`check_availability` and after `_find_matching_item` is the state before. -/
theorem check_availability_readonly (st : CheckerState) (now : List Char)
    (items : List (List Char × Rat)) (name : List Char) :
    (checkAvailabilityS st now items).1 = st ∧ (findMatchingItemS st name).1 = st :=
  ⟨rfl, rfl⟩

/-! ## Payment callback (`backend/mpesa_callback.py`) -/

/-- A JSON scalar occurring in callback metadata. -/
inductive JVal
  | str (s : List Char)
  | num (q : Rat)
  | boolean (b : Bool)
deriving DecidableEq

/-- One entry of `CallbackMetadata.Item`; the `Name`/`Value` keys may be
absent. -/
structure MetaItem where
  name : Option (List Char)
  value : Option JVal
deriving DecidableEq

/-- The parsed `Body.stkCallback` object; every key access is `.get`, so every
field is optional (`CallbackMetadata.Item` defaults to the empty list). -/
structure StkCallbackData where
  resultCode : Option Int
  resultDesc : Option (List Char)
  checkoutRequestID : Option (List Char)
  merchantRequestID : Option (List Char)
  metadataItems : List MetaItem
deriving DecidableEq

/-- `metadata[item['Name']] = item['Value']` — Python dict insertion order with
in-place overwrite. -/
def dictSetJ (k : List Char) (v : JVal) (d : List (List Char × JVal)) :
    List (List Char × JVal) :=
  if d.any (fun kv => kv.1 == k) then
    d.map (fun kv => if kv.1 == k then (k, v) else kv)
  else d ++ [(k, v)]

def dictGetJ (k : List Char) (d : List (List Char × JVal)) : Option JVal :=
  (d.find? (fun kv => kv.1 == k)).map Prod.snd

/-- The metadata loop of the `ResultCode == 0` branch. -/
def collectMetadata (items : List MetaItem) : List (List Char × JVal) :=
  items.foldl (fun md it =>
    match it.name, it.value with
    | some n, some v => dictSetJ n v md
    | _, _ => md) []

/-- A `payment_status` record.  `completed` carries the extracted transaction
metadata; `failed` carries `error_code`, `error_message`, `retry_possible`. -/
inductive PayRecord
  | completed (transactionId phone amount : Option JVal) (timestamp : List Char)
      (metadata : List (List Char × JVal))
  | failed (errorCode : Option Int) (errorMessage : Option (List Char))
      (retryPossible : Bool)
deriving DecidableEq

/-- The `payment_status` dict, keyed by `CheckoutRequestID` (which can be the
Python `None` when the callback lacks the key). -/
abbrev PayStore : Type := List (Option (List Char) × PayRecord)

def storeSet (k : Option (List Char)) (v : PayRecord) (d : PayStore) : PayStore :=
  if d.any (fun kv => kv.1 == k) then
    d.map (fun kv => if kv.1 == k then (k, v) else kv)
  else d ++ [(k, v)]

def storeGet (k : Option (List Char)) (d : PayStore) : Option PayRecord :=
  (d.find? (fun kv => kv.1 == k)).map Prod.snd

/-- The fixed timeout message stored for result code 1037. -/
def timeoutMsg : List Char :=
  ("Payment timeout - Could not reach your phone. Please ensure your phone is on and has network coverage.").toList

/-- The three response shapes `mpesa_callback` can actually return: the
success dict of the code-0 branch, the error dict of the failure branches, and
the gateway acknowledgment (`ResultCode 0`) of the exception handler. -/
inductive CallbackResponse
  | successResp (checkoutRequestID : Option (List Char))
      (transactionId amount phone : Option JVal)
  | errorResp (errorCode : Option Int) (errorMessage : Option (List Char))
      (retryPossible : Bool)
  | ackResp
deriving DecidableEq

/-- `mpesa_callback`: `payload = none` models a request whose body fails to
parse (the `except` path); otherwise the parsed `stkCallback` object.  `now`
is the formatted call time stored in completed records.  Returns the updated
`payment_status` store and the HTTP response. -/
def mpesaCallback (now : List Char) (store : PayStore)
    (payload : Option StkCallbackData) : PayStore × CallbackResponse :=
  match payload with
  | none => (store, CallbackResponse.ackResp)
  | some result =>
    if result.resultCode = some 0 then
      let metadata := collectMetadata result.metadataItems
      let transactionId := dictGetJ (("MpesaReceiptNumber").toList) metadata
      let phone := dictGetJ (("PhoneNumber").toList) metadata
      let amount := dictGetJ (("Amount").toList) metadata
      let store1 := storeSet result.checkoutRequestID
        (PayRecord.completed transactionId phone amount now metadata) store
      (store1,
        CallbackResponse.successResp result.checkoutRequestID transactionId amount phone)
    else if result.resultCode = some 1037 then
      let store1 := storeSet result.checkoutRequestID
        (PayRecord.failed (some 1037) (some timeoutMsg) true) store
      (store1, CallbackResponse.errorResp result.resultCode (some timeoutMsg) true)
    else
      let retry := result.resultCode == some 1 || result.resultCode == some 1037
      let store1 := storeSet result.checkoutRequestID
        (PayRecord.failed result.resultCode result.resultDesc retry) store
      (store1, CallbackResponse.errorResp result.resultCode result.resultDesc retry)

/-- A Python value inside the payment-response dict. -/
inductive PyVal
  | str (s : List Char)
  | num (q : Rat)
  | boolean (b : Bool)
  | dict (entries : List (List Char × PyVal))

abbrev PyDict : Type := List (List Char × PyVal)

def dictGetP (k : List Char) (d : PyDict) : Option PyVal :=
  (d.find? (fun kv => kv.1 == k)).map Prod.snd

/-- Python `v == '<s>'` for an optional dict value: true only for an equal
string (comparing `None` or a number with a string is `False`). -/
def pyEqStr (v : Option PyVal) (s : List Char) : Bool :=
  match v with
  | some (PyVal.str t) => t == s
  | _ => false

/-- Python truthiness of `payment_response.get('simulation', False)`. -/
def pyTruthy : Option PyVal → Bool
  | some (PyVal.boolean b) => b
  | some (PyVal.str s) => !s.isEmpty
  | some (PyVal.num q) => !(decide (q = 0))
  | some (PyVal.dict d) => !d.isEmpty
  | none => false

/-- The success classification of `_process_mpesa_payment` (lines 434–446):
top-level `ResponseCode == '0'`, or top-level `status == 'success'`, or a
`data` dict with `ResponseCode == '0'`. -/
def isSuccessResponse (resp : PyDict) : Bool :=
  pyEqStr (dictGetP (("ResponseCode").toList) resp) (("0").toList)
    || pyEqStr (dictGetP (("status").toList) resp) (("success").toList)
    || (match dictGetP (("data").toList) resp with
        | some (PyVal.dict d) => pyEqStr (dictGetP (("ResponseCode").toList) d) (("0").toList)
        | _ => false)

/-- The session-order fields `_process_mpesa_payment` writes. -/
structure SessionOrder where
  payment_status : Option (List Char)
  order_id : Option (List Char)
deriving DecidableEq

/-- The session update of `_process_mpesa_payment`: on a success-classified
response the attempt is recorded `pending` (and `completed` immediately when
the response is a simulation); otherwise the session is left unchanged (the
error paths only send messages). -/
def processPaymentStatus (resp : PyDict) (sess : SessionOrder)
    (orderId : List Char) : SessionOrder :=
  if isSuccessResponse resp then
    if pyTruthy (dictGetP (("simulation").toList) resp) then
      ⟨some (("completed").toList), some orderId⟩
    else
      ⟨some (("pending").toList), some orderId⟩
  else sess

theorem find?_overwrite (k : Option (List Char)) (v : PayRecord) :
    ∀ d : PayStore, d.any (fun kv => kv.1 == k) = true →
      (d.map (fun kv => if kv.1 == k then (k, v) else kv)).find?
          (fun kv => kv.1 == k) = some (k, v) := by
  intro d
  induction d with
  | nil => intro h; simp at h
  | cons kv rest ih =>
    intro hany
    by_cases hk : (kv.1 == k) = true
    · rw [List.map_cons, if_pos hk]
      exact List.find?_cons_of_pos _ (by simp)
    · have hkf : (kv.1 == k) = false := by simpa using hk
      have hrest : rest.any (fun kv => kv.1 == k) = true := by
        rw [List.any_cons, hkf, Bool.false_or] at hany
        exact hany
      rw [List.map_cons, if_neg hk, List.find?_cons_of_neg _ (by simpa using hk)]
      exact ih hrest

theorem storeGet_storeSet (k : Option (List Char)) (v : PayRecord) (d : PayStore) :
    storeGet k (storeSet k v d) = some v := by
  unfold storeGet storeSet
  by_cases hany : d.any (fun kv => kv.1 == k) = true
  · rw [if_pos hany, find?_overwrite k v d hany]
    rfl
  · rw [if_neg hany]
    have hnone : d.find? (fun kv => kv.1 == k) = none := by
      rw [List.find?_eq_none]
      intro kv hmem hbeq
      exact hany (List.any_eq_true.mpr ⟨kv, hmem, hbeq⟩)
    rw [List.find?_append, hnone, Option.none_or,
      List.find?_cons_of_pos _ (by simp)]
    rfl

/-- C5 (counterexample): a synchronous gateway response `{"ResultCode": 0}` is
not classified as a success — the classifier looks for `ResponseCode == '0'`
(a string, and a different key), `status == 'success'`, or `data.ResponseCode
== '0'` — so no `pending` attempt is recorded for it. -/
theorem sync_resultcode_zero_not_pending_cex :
    isSuccessResponse [((("ResultCode").toList), PyVal.num 0)] = false
      ∧ (processPaymentStatus [((("ResultCode").toList), PyVal.num 0)]
          ⟨none, none⟩ (("o1").toList)).payment_status
        ≠ some (("pending").toList) := by
  refine ⟨by decide, ?_⟩
  intro hc
  have h1 : isSuccessResponse [((("ResultCode").toList), PyVal.num 0)] = false := by decide
  rw [processPaymentStatus, h1] at hc
  simp at hc

/-- C5 (amended): payment-result classification as the code implements it.
A callback with result code 1037 records a `failed` attempt with
`retry_possible = true` under its correlation id; a synchronous response is
classified successful when it carries `ResponseCode '0'` (top level or inside
`data`) or `status 'success'` — not for a bare `ResultCode 0` — and then the
attempt is recorded `pending` (non-simulation); a callback with result code 0
records the attempt `completed` with receipt number, payer phone and amount
extracted from the metadata list. -/
theorem payment_result_classification (now : List Char) (store : PayStore)
    (cb : StkCallbackData) (resp : PyDict) (sess : SessionOrder)
    (orderId : List Char) :
    (cb.resultCode = some 1037 →
        storeGet cb.checkoutRequestID (mpesaCallback now store (some cb)).1
          = some (PayRecord.failed (some 1037) (some timeoutMsg) true))
      ∧ (isSuccessResponse resp = true →
          pyTruthy (dictGetP (("simulation").toList) resp) = false →
          (processPaymentStatus resp sess orderId).payment_status
            = some (("pending").toList))
      ∧ (cb.resultCode = some 0 →
          storeGet cb.checkoutRequestID (mpesaCallback now store (some cb)).1
            = some (PayRecord.completed
                (dictGetJ (("MpesaReceiptNumber").toList) (collectMetadata cb.metadataItems))
                (dictGetJ (("PhoneNumber").toList) (collectMetadata cb.metadataItems))
                (dictGetJ (("Amount").toList) (collectMetadata cb.metadataItems))
                now (collectMetadata cb.metadataItems))) := by
  refine ⟨fun h1037 => ?_, fun hs hsim => ?_, fun h0 => ?_⟩
  · rw [mpesaCallback]
    rw [if_neg (by rw [h1037]; decide), if_pos h1037]
    exact storeGet_storeSet _ _ _
  · rw [processPaymentStatus, if_pos hs, if_neg (by rw [hsim]; exact Bool.false_ne_true)]
  · rw [mpesaCallback, if_pos h0]
    exact storeGet_storeSet _ _ _

/-- Witness for the amended C5 theorem: a concrete 1037 callback stores a
retryable failure, and a concrete `ResponseCode '0'` response is recorded
`pending`. -/
theorem payment_result_classification_witness :
    storeGet (some (("chk").toList))
        (mpesaCallback (("t").toList) []
          (some ⟨some 1037, none, some (("chk").toList), none, []⟩)).1
      = some (PayRecord.failed (some 1037) (some timeoutMsg) true)
    ∧ (processPaymentStatus [((("ResponseCode").toList), PyVal.str (("0").toList))]
        ⟨none, none⟩ (("o1").toList)).payment_status = some (("pending").toList) := by
  have h := payment_result_classification (("t").toList) []
    ⟨some 1037, none, some (("chk").toList), none, []⟩
    [((("ResponseCode").toList), PyVal.str (("0").toList))] ⟨none, none⟩ (("o1").toList)
  exact ⟨h.1 rfl, h.2.1 (by decide) (by decide)⟩

/-! ## STK push initiation (`backend/payment_handler.py`) -/

/-- `_prepare_phone_number`. -/
def preparePhoneNumber (phone : List Char) : List Char :=
  if (("0").toList).isPrefixOf phone then ("254").toList ++ phone.drop 1
  else if (("+254").toList).isPrefixOf phone then phone.drop 1
  else if (("7").toList).isPrefixOf phone ∧ phone.length = 9 then ("254").toList ++ phone
  else phone

example : preparePhoneNumber (("0712345678").toList) = ("254712345678").toList := by decide
example : preparePhoneNumber (("+254712345678").toList) = ("254712345678").toList := by decide
example : preparePhoneNumber (("712345678").toList) = ("254712345678").toList := by decide

/-- Python `phone or self.test_phone`: the fallback applies when `phone` is
`None` or the empty string. -/
def pyOrPhone (phone : Option (List Char)) (testPhone : List Char) : List Char :=
  match phone with
  | none => testPhone
  | some p => if p.isEmpty then testPhone else p

/-- Reading a local variable: `NameError` when the name has not been assigned
in the function body. -/
def lookupLocal (assigned : List (List Char)) (n : List Char) : Except PyExn Unit :=
  if n ∈ assigned then Except.ok () else Except.error (PyExn.nameError n)

/-- The local variables assigned in the non-simulation body of
`initiate_stk_push` before the request-details logging: the parameters and the
rebound `phone`.  `headers`, `payload`, `password` and `timestamp` are never
assigned anywhere in the function. -/
def stkPushLocals : List (List Char) :=
  [("self").toList, ("amount").toList, ("order_id").toList,
    ("description").toList, ("phone").toList]

/-- The `try` body of the non-simulation path of `initiate_stk_push`,
statement by statement: `_log_credentials` (log only), `_ensure_valid_token`
(outcome passed in as `ensureToken`), the `phone` rebinding, then the
request-details logging, whose first statement reads the never-assigned local
`headers` (the following statements read `payload`, `password` and
`timestamp`, equally unassigned).  `rest` abstracts the remainder of the body
(the actual network request), which is unreachable. -/
def stkPushTryBody (ensureToken : Except PyExn Unit) (phone : Option (List Char))
    (testPhone : List Char) (rest : Except PyExn PyDict) : Except PyExn PyDict := do
  ensureToken
  let _ph := preparePhoneNumber (pyOrPhone phone testPhone)
  let _ ← lookupLocal stkPushLocals (("headers").toList)
  let _ ← lookupLocal stkPushLocals (("payload").toList)
  let _ ← lookupLocal stkPushLocals (("password").toList)
  let _ ← lookupLocal stkPushLocals (("timestamp").toList)
  rest

/-- The dict shapes `initiate_stk_push` can return. -/
inductive StkResponse
  | simulated (orderId : List Char)
  | successResp (data : PyDict)
  | errorResp (message details : List Char)
  | unexpectedError (details : List Char)

/-- `str(e)` for the modelled exceptions (for `NameError` the message names
the missing variable). -/
def exnMessage : PyExn → List Char
  | PyExn.nameError n => (("name ").toList) ++ n ++ ((" is not defined").toList)
  | PyExn.valueError => ("ValueError").toList
  | PyExn.httpError d => d
  | PyExn.connectionError => ("ConnectionError").toList

/-- `initiate_stk_push`.  `simulationMode` mirrors `self.simulation_mode`;
`ensureToken` the outcome of `_ensure_valid_token`; `rest` the unreachable
remainder of the `try` body.  The `except requests.exceptions.HTTPError`
clause catches only HTTP errors; every other exception reaches the generic
handler, which returns the
`{'error': 'An unexpected error occurred while processing your payment.'}`
dict. -/
def initiate_stk_push (simulationMode : Bool) (ensureToken : Except PyExn Unit)
    (rest : Except PyExn PyDict) (orderId : List Char)
    (phone : Option (List Char)) (testPhone : List Char) : StkResponse :=
  if simulationMode then StkResponse.simulated orderId
  else
    match stkPushTryBody ensureToken phone testPhone rest with
    | Except.ok data => StkResponse.successResp data
    | Except.error e =>
      match e with
      | PyExn.httpError d =>
          StkResponse.errorResp (("Payment processing failed").toList) d
      | _ => StkResponse.unexpectedError (exnMessage e)

/-- C1: with simulation mode off and a successful token refresh, every call to
`initiate_stk_push` returns the generic unexpected-error dict — the request
logging reads `headers` (and then `payload`, `password`, `timestamp`) before
any assignment to them, so the body raises `NameError` and the final handler
catches it; no success-shaped response is ever produced, whatever the
unreached remainder of the body would have done. -/
theorem stk_push_always_name_error (rest : Except PyExn PyDict)
    (orderId : List Char) (phone : Option (List Char)) (testPhone : List Char) :
    initiate_stk_push false (Except.ok ()) rest orderId phone testPhone
        = StkResponse.unexpectedError (exnMessage (PyExn.nameError (("headers").toList)))
      ∧ ∀ data : PyDict,
          initiate_stk_push false (Except.ok ()) rest orderId phone testPhone
            ≠ StkResponse.successResp data := by
  have hbody : stkPushTryBody (Except.ok ()) phone testPhone rest
      = Except.error (PyExn.nameError (("headers").toList)) := by
    rw [stkPushTryBody]
    rfl
  constructor
  · rw [initiate_stk_push, if_neg (by simp), hbody]
  · intro data hc
    rw [initiate_stk_push, if_neg (by simp), hbody] at hc
    cases hc

end OrderAssistant
